import Mathlib

/-!
Shallow embedding of the vercel-deployments tray application.

Source files embedded here:
  - vercel_menu_indicator/api.py          (VercelClient: list_deployments,
    _parse_deployment, _extract_git_meta)
  - vercel_menu_indicator/indicator.py    (VercelIndicator: _overall_status,
    _apply_update, _notify_production_events, _spawn_refresh_thread,
    _schedule_refresh)
  - vercel_menu_indicator/config.py       (load_config)

Conventions of the embedding:
  - Python dictionaries become association lists; `dict.get` returns the
    first binding of a key (JSON object parsing deduplicates keys, so in
    practice the lists have distinct keys).
  - Python `a or b` on strings and numbers is modelled by `pyOrStr` /
    `pyOrNat`: None, the empty string and 0 are falsy.
  - `datetime` values are represented by their underlying epoch value in
    milliseconds. `datetime.fromtimestamp(created / 1000)` (true division,
    so millisecond precision is preserved) is strictly monotone in
    `created`, so comparisons and sort order are unchanged.
  - `str.lower` is modelled by mapping `Char.toLower` over the characters.
  - I/O effects (the HTTP response body, the config file contents, GLib
    timer sources, worker threads) are made explicit as parameters,
    returned values or small state machines.
-/

namespace VercelSpec

/-- Python `a or b` where `a` came from `dict.get` (None when the key is
missing) and where the empty string is falsy. -/
def pyOrStr (a : Option String) (b : String) : String :=
  match a with
  | none => b
  | some s => if s = "" then b else s

/-- Python `a or b` where `a` came from `dict.get` and `0` is falsy. -/
def pyOrNat (a : Option Nat) (b : Nat) : Nat :=
  match a with
  | none => b
  | some n => if n = 0 then b else n

/-- Python `str.lower`, modelled character by character. -/
def pyLower (s : String) : String :=
  String.mk (s.data.map Char.toLower)

/-- Association list standing for a Python `dict` with string values. -/
abbrev StrDict := List (String × String)

/-- Python `dict.get k` : the first binding of `k`, if any. -/
def dictGet : StrDict → String → Option String
  | [], _ => none
  | (k', v) :: rest, k => if k' = k then some v else dictGet rest k

/-- Python `dict[k] = v` : replace the binding of `k`, or append a new one. -/
def dictSet : StrDict → String → String → StrDict
  | [], k, v => [(k, v)]
  | (k', v') :: rest, k, v =>
      if k' = k then (k, v) :: rest else (k', v') :: dictSet rest k v

/-- Deployment record built by `VercelClient._parse_deployment`
(api.py, `@dataclass class Deployment`). `created_at` is the epoch
timestamp in milliseconds. -/
structure Deployment where
  id : String
  name : String
  url : String
  status : String
  created_at : Nat
  branch : String := ""
  commit_sha : String := ""
  commit_message : String := ""
  author : String := ""
  target : String := ""
deriving Repr, DecidableEq

/-- Raw deployment object as received from the API, restricted to the keys
`_parse_deployment` and `_extract_git_meta` read. A `none` field is a key
missing from the JSON object; `meta` and `creator` are the nested objects
(`raw.get("meta") or ` the empty dict, likewise for `creator`). -/
structure RawDeployment where
  id : Option String := none
  uid : Option String := none
  name : Option String := none
  projectName : Option String := none
  url : Option String := none
  inspectorUrl : Option String := none
  createdAt : Option Nat := none
  created_at_snake : Option Nat := none
  readyState : Option String := none
  state : Option String := none
  target : Option String := none
  environment : Option String := none
  meta : StrDict := []
  creator : StrDict := []
deriving Repr, DecidableEq

/-- The `status_map` dictionary lookup with default `"unknown"` from
`_parse_deployment` (api.py lines 87-97). -/
def status_map_get (s : String) : String :=
  if s = "ready" then "ready"
  else if s = "building" then "building"
  else if s = "queued" then "building"
  else if s = "initializing" then "building"
  else if s = "error" then "error"
  else if s = "failed" then "error"
  else if s = "canceled" then "error"
  else if s = "cancelled" then "error"
  else "unknown"

/-- Status computation of `_parse_deployment` (api.py line 85 and 97):
`(raw.get("readyState") or raw.get("state") or "").lower()` pushed through
`status_map`. -/
def parse_status (readyState state : Option String) : String :=
  status_map_get (pyLower (pyOrStr readyState (pyOrStr state "")))

/-- `VercelClient._extract_git_meta` (api.py lines 116-164): best-effort
extraction of (branch, sha, message, author) across git providers. -/
def extract_git_meta (meta creator : StrDict) :
    String × String × String × String :=
  let branch :=
    pyOrStr (dictGet meta "githubCommitRef")
      (pyOrStr (dictGet meta "gitlabCommitRef")
        (pyOrStr (dictGet meta "bitbucketCommitRef")
          (pyOrStr (dictGet meta "branch")
            (pyOrStr (dictGet meta "commitRef") ""))))
  let sha :=
    pyOrStr (dictGet meta "githubCommitSha")
      (pyOrStr (dictGet meta "gitlabCommitSha")
        (pyOrStr (dictGet meta "bitbucketCommitSha")
          (pyOrStr (dictGet meta "commitSha")
            (pyOrStr (dictGet meta "sha") ""))))
  let message :=
    pyOrStr (dictGet meta "githubCommitMessage")
      (pyOrStr (dictGet meta "gitlabCommitMessage")
        (pyOrStr (dictGet meta "bitbucketCommitMessage")
          (pyOrStr (dictGet meta "commitMessage") "")))
  let author0 :=
    pyOrStr (dictGet meta "githubCommitAuthorName")
      (pyOrStr (dictGet meta "gitlabCommitAuthorName")
        (pyOrStr (dictGet meta "bitbucketCommitAuthorName")
          (pyOrStr (dictGet meta "commitAuthorName") "")))
  let author :=
    if author0 = "" then
      pyOrStr (dictGet creator "name")
        (pyOrStr (dictGet creator "username")
          (pyOrStr (dictGet creator "email") ""))
    else author0
  (branch, sha, message, author)

/-- `VercelClient._parse_deployment` (api.py lines 78-114). `now` is the
current time in epoch milliseconds, used when the payload carries no
creation timestamp. -/
def parse_deployment (now : Nat) (raw : RawDeployment) : Deployment :=
  let dep_id := pyOrStr raw.id (pyOrStr raw.uid "")
  let nm := pyOrStr raw.name (pyOrStr raw.projectName "")
  let u := pyOrStr raw.url (pyOrStr raw.inspectorUrl "")
  let created := pyOrNat raw.createdAt (pyOrNat raw.created_at_snake 0)
  let created_at := if created ≠ 0 then created else now
  let st := parse_status raw.readyState raw.state
  let gm := extract_git_meta raw.meta raw.creator
  let tgt := pyOrStr raw.target (pyOrStr raw.environment "")
  { id := dep_id
    name := if nm = "" then "(unknown)" else nm
    url := u
    status := st
    created_at := created_at
    branch := gm.1
    commit_sha := gm.2.1
    commit_message := gm.2.2.1
    author := gm.2.2.2
    target := tgt }

/-- Python slicing `l[:limit]` for an `int` limit: a nonnegative limit keeps
the first `limit` elements, a negative limit drops the last `-limit`
elements. -/
def pySlice {α : Type} (limit : Int) (l : List α) : List α :=
  if 0 ≤ limit then l.take limit.toNat
  else l.take (l.length - (-limit).toNat)

/-- Comparison used by `parsed.sort(key=lambda d: d.created_at,
reverse=True)`: descending order of `created_at`. -/
def created_desc (a b : Deployment) : Prop :=
  b.created_at ≤ a.created_at

instance : DecidableRel created_desc :=
  fun a b => inferInstanceAs (Decidable (b.created_at ≤ a.created_at))

/-- `VercelClient.list_deployments` (api.py lines 52-76) on a successful
response. The HTTP exchange is made explicit: the first component is the
`limit` query parameter sent, `max(1, min(limit, 50))`; `raws` is the
decoded `deployments` array of the response; the second component is the
value returned, the parsed list sorted by `created_at` descending (Python
`list.sort` is stable, modelled by a stable insertion sort) and then
sliced by `parsed[: limit]`. -/
def list_deployments (limit : Int) (now : Nat) (raws : List RawDeployment) :
    Int × List Deployment :=
  let parsed := raws.map (parse_deployment now)
  let sorted := List.insertionSort created_desc parsed
  (max 1 (min limit 50), pySlice limit sorted)

/-- `VercelIndicator._overall_status` (indicator.py lines 218-223). -/
def overall_status (ds : List Deployment) : String :=
  if ds.any (fun d => d.status = "building") then "building"
  else if ds.any (fun d => d.status = "error") then "error"
  else "ready"

/-- Overall-status fragment of `VercelIndicator._apply_update`
(indicator.py lines 264-269). Input is the previous
`_last_overall_status`; output is the new `_last_overall_status` and
whether the "Overall status" notification was shown. -/
def apply_update_overall (last : Option String) (ds : List Deployment) :
    Option String × Bool :=
  let overall := if ds.isEmpty then "error" else overall_status ds
  let changed :=
    match last with
    | none => true
    | some s => overall ≠ s
  (some overall, changed && last.isSome)

/-- Mutable state of `_notify_production_events`: the `_prod_seen`
dictionary (deployment id to last seen status) and the
`_prod_seen_bootstrapped` flag. -/
structure ProdState where
  prod_seen : StrDict
  bootstrapped : Bool
deriving Repr, DecidableEq

/-- Production filter of `_notify_production_events` (indicator.py line
282): deployments whose target, lowercased, is `"production"`. -/
def production_of (ds : List Deployment) : List Deployment :=
  ds.filter (fun d => pyLower d.target = "production")

/-- Post-bootstrap loop of `_notify_production_events` (indicator.py lines
289-293). Walks the production deployments, accumulating the updated
`_prod_seen` dictionary and the list of deployments for which
`_send_prod_notification` fired, in order. -/
def notify_loop : StrDict → List Deployment → List Deployment →
    StrDict × List Deployment
  | seen, sent, [] => (seen, sent)
  | seen, sent, d :: rest =>
    match dictGet seen d.id with
    | none => notify_loop (dictSet seen d.id d.status) (sent ++ [d]) rest
    | some prev =>
      if prev ≠ d.status then
        notify_loop (dictSet seen d.id d.status) (sent ++ [d]) rest
      else
        notify_loop seen sent rest

/-- `VercelIndicator._notify_production_events` (indicator.py lines
280-293). Returns the updated state and the deployments for which a
production notification was sent. -/
def notify_production_events (st : ProdState) (ds : List Deployment) :
    ProdState × List Deployment :=
  let production := production_of ds
  if !st.bootstrapped then
    ({ prod_seen :=
         production.foldl (fun m d => dictSet m d.id d.status) st.prod_seen
       bootstrapped := true }, [])
  else
    let r := notify_loop st.prod_seen [] production
    ({ st with prod_seen := r.1 }, r.2)

/-- Value carried by one configuration entry (config.py `AppConfig`
fields are strings, ints and bools). -/
inductive CVal
  | s (v : String)
  | n (v : Int)
  | b (v : Bool)
deriving Repr, DecidableEq

/-- Association list standing for the configuration dictionary. -/
abbrev CDict := List (String × CVal)

/-- Python `dict.get k` on a configuration dictionary. -/
def cget : CDict → String → Option CVal
  | [], _ => none
  | (k', v) :: rest, k => if k' = k then some v else cget rest k

/-- `asdict(AppConfig())` (config.py lines 24-28): the five defaults. -/
def default_config : CDict :=
  [("token", .s ""), ("team_id", .s ""), ("refresh_interval", .n 30),
   ("max_items", .n 10), ("notify_prod_events", .b true)]

/-- Python `data.setdefault(k, v)`: keep an existing binding, otherwise
append a new one. -/
def setdefault (m : CDict) (k : String) (v : CVal) : CDict :=
  if (cget m k).isSome then m else m ++ [(k, v)]

/-- Outcome of reading and JSON-decoding the config file: the file does
not exist, it exists but raises while being read or parsed (or does not
parse to a dict), or it parses to a dictionary. -/
inductive ConfigFile
  | missing
  | unreadable
  | parsed (data : CDict)
deriving Repr, DecidableEq

/-- `load_config` (config.py lines 43-56), with the file system read made
explicit as a `ConfigFile` value. -/
def load_config : ConfigFile → CDict
  | .missing => default_config
  | .unreadable => default_config
  | .parsed data =>
      default_config.foldl (fun acc kv => setdefault acc kv.1 kv.2) data

/-- Events acting on the fetch-in-progress flag of `VercelIndicator`:
the repeating GLib timeout firing (`_refresh_timeout_cb`), a call to
`_schedule_refresh(immediate=True)` (initial start, manual refresh,
preferences saved), a call with `immediate=False`, and `_apply_update`
running on the GLib main loop after a worker finished. -/
inductive FetchEvent
  | timeoutFires
  | scheduleImmediate
  | scheduleLater
  | applyUpdate
deriving Repr, DecidableEq

/-- Fetch-thread bookkeeping: the `_refresh_in_progress` flag and the
number of spawned workers whose `_apply_update` has not yet run. -/
structure FetchState where
  refresh_in_progress : Bool
  outstanding : Nat
deriving Repr, DecidableEq

/-- `VercelIndicator._spawn_refresh_thread` (indicator.py lines 243-258):
return immediately when a refresh is in progress, otherwise set the flag
and start one worker. -/
def spawn_refresh_thread (s : FetchState) : FetchState :=
  if s.refresh_in_progress then s
  else { refresh_in_progress := true, outstanding := s.outstanding + 1 }

/-- One step of the fetch-flag state machine. `_apply_update` (indicator.py
line 261) clears the flag; it is the only place that clears it, and it
retires the worker that posted it. -/
def fetch_step (s : FetchState) : FetchEvent → FetchState
  | .timeoutFires => spawn_refresh_thread s
  | .scheduleImmediate => spawn_refresh_thread s
  | .scheduleLater => s
  | .applyUpdate =>
      { refresh_in_progress := false, outstanding := s.outstanding - 1 }

/-- Initial fetch state (indicator.py line 44). -/
def fetch_init : FetchState :=
  { refresh_in_progress := false, outstanding := 0 }

/-- Run a sequence of fetch events. -/
def fetch_run (s : FetchState) (evs : List FetchEvent) : FetchState :=
  evs.foldl fetch_step s

/-- Timer bookkeeping of `VercelIndicator`: the `_refresh_timer_id` field
and the multiset of currently registered GLib timeout sources (by id),
with a fresh-id counter standing for GLib source-id allocation. -/
structure TimerState where
  refresh_timer_id : Option Nat
  active : List Nat
  next_id : Nat
deriving Repr, DecidableEq

/-- `VercelIndicator._schedule_refresh` (indicator.py lines 228-237),
restricted to its effect on timer sources: remove the existing source when
`_refresh_timer_id` is not None, then register a new repeating timeout and
store its id. (The `immediate` flag only spawns a fetch thread and does
not touch timers.) -/
def schedule_refresh (s : TimerState) : TimerState :=
  let s1 :=
    match s.refresh_timer_id with
    | some tid => { s with active := s.active.erase tid, refresh_timer_id := none }
    | none => s
  { refresh_timer_id := some s1.next_id
    active := s1.active ++ [s1.next_id]
    next_id := s1.next_id + 1 }

/-- Operations that touch the refresh timer: initial start (indicator.py
line 57), manual refresh (line 226) and preferences saved (line 78) all
call `_schedule_refresh`; the timeout callback returns True (line 241),
keeping its source registered and unchanged. -/
inductive TimerEvent
  | start
  | manualRefresh
  | prefsSaved
  | timeoutFires
deriving Repr, DecidableEq

/-- One step of the timer state machine. -/
def timer_step (s : TimerState) : TimerEvent → TimerState
  | .start => schedule_refresh s
  | .manualRefresh => schedule_refresh s
  | .prefsSaved => schedule_refresh s
  | .timeoutFires => s

/-- Initial timer state (indicator.py line 43). -/
def timer_init : TimerState :=
  { refresh_timer_id := none, active := [], next_id := 0 }

/-- Run a sequence of timer events. -/
def timer_run (s : TimerState) (evs : List TimerEvent) : TimerState :=
  evs.foldl timer_step s

/-- First non-empty string of a list, or the empty string. Spec-side
description of a Python `a or b or ...` fallback chain. -/
def firstNonEmpty : List String → String
  | [] => ""
  | s :: rest => if s = "" then firstNonEmpty rest else s

/-- Python `dict.get(k) or ...` seen as a plain string: the bound value,
or the empty string when the key is missing. -/
def dgetD (m : StrDict) (k : String) : String :=
  (dictGet m k).getD ""

/-! Helper lemmas. -/

lemma pyOrStr_eq_getD (a : Option String) (b : String) :
    pyOrStr a b = if a.getD "" = "" then b else a.getD "" := by
  cases a with
  | none => simp [pyOrStr]
  | some s => by_cases h : s = "" <;> simp [pyOrStr, h]

lemma status_map_get_cases (s : String) :
    status_map_get s = "ready" ∨ status_map_get s = "building" ∨
    status_map_get s = "error" ∨ status_map_get s = "unknown" := by
  unfold status_map_get
  split_ifs <;> simp

/-! Claim theorems, in claim order. -/

/-- C1: the deployment status classification is total. `_parse_deployment`
takes `readyState` (falling back to `state`, then to the empty string)
lowercased, maps it through the fixed table (ready to ready; building,
queued, initializing to building; error, failed, canceled, cancelled to
error; everything else, the empty string included, to "unknown"), so
`Deployment.status` is always one of ready, building, error, unknown. -/
theorem status_classification_total :
    (∀ rs st : Option String,
      parse_status rs st = "ready" ∨ parse_status rs st = "building" ∨
      parse_status rs st = "error" ∨ parse_status rs st = "unknown") ∧
    (∀ (now : Nat) (raw : RawDeployment),
      (parse_deployment now raw).status = parse_status raw.readyState raw.state) ∧
    status_map_get "ready" = "ready" ∧
    status_map_get "building" = "building" ∧
    status_map_get "queued" = "building" ∧
    status_map_get "initializing" = "building" ∧
    status_map_get "error" = "error" ∧
    status_map_get "failed" = "error" ∧
    status_map_get "canceled" = "error" ∧
    status_map_get "cancelled" = "error" ∧
    parse_status none none = "unknown" := by
  refine ⟨fun rs st => status_map_get_cases _, fun now raw => rfl,
    ?_, ?_, ?_, ?_, ?_, ?_, ?_, ?_, ?_⟩ <;> decide

/-- C7: `_extract_git_meta` returns, for each of branch, commit sha and
commit message, the first non-empty value in the fixed provider priority
order (GitHub, GitLab, Bitbucket, then generic keys), defaulting to the
empty string; for author it additionally falls back, when all meta keys
are empty, to the creator name, then username, then email, then the empty
string. -/
theorem extract_git_meta_priority (meta creator : StrDict) :
    (extract_git_meta meta creator).1 =
      firstNonEmpty [dgetD meta "githubCommitRef", dgetD meta "gitlabCommitRef",
        dgetD meta "bitbucketCommitRef", dgetD meta "branch",
        dgetD meta "commitRef"] ∧
    (extract_git_meta meta creator).2.1 =
      firstNonEmpty [dgetD meta "githubCommitSha", dgetD meta "gitlabCommitSha",
        dgetD meta "bitbucketCommitSha", dgetD meta "commitSha",
        dgetD meta "sha"] ∧
    (extract_git_meta meta creator).2.2.1 =
      firstNonEmpty [dgetD meta "githubCommitMessage",
        dgetD meta "gitlabCommitMessage", dgetD meta "bitbucketCommitMessage",
        dgetD meta "commitMessage"] ∧
    (extract_git_meta meta creator).2.2.2 =
      (if firstNonEmpty [dgetD meta "githubCommitAuthorName",
            dgetD meta "gitlabCommitAuthorName",
            dgetD meta "bitbucketCommitAuthorName",
            dgetD meta "commitAuthorName"] = "" then
        firstNonEmpty [dgetD creator "name", dgetD creator "username",
          dgetD creator "email"]
      else
        firstNonEmpty [dgetD meta "githubCommitAuthorName",
          dgetD meta "gitlabCommitAuthorName",
          dgetD meta "bitbucketCommitAuthorName",
          dgetD meta "commitAuthorName"]) := by
  refine ⟨?_, ?_, ?_, ?_⟩ <;>
    simp only [extract_git_meta, firstNonEmpty, dgetD, pyOrStr_eq_getD]

/-- C9: `_overall_status` gives priority building, then error, then ready;
on the empty list it returns "ready", while `_apply_update` treats the
empty list as overall "error". -/
theorem overall_status_priority (ds : List Deployment) :
    ((∃ d ∈ ds, d.status = "building") → overall_status ds = "building") ∧
    ((∀ d ∈ ds, d.status ≠ "building") → (∃ d ∈ ds, d.status = "error") →
      overall_status ds = "error") ∧
    ((∀ d ∈ ds, d.status ≠ "building") → (∀ d ∈ ds, d.status ≠ "error") →
      overall_status ds = "ready") ∧
    overall_status [] = "ready" ∧
    (∀ last, (apply_update_overall last []).1 = some "error") ∧
    (∀ last, ds ≠ [] →
      (apply_update_overall last ds).1 = some (overall_status ds)) := by
  refine ⟨?_, ?_, ?_, ?_, ?_, ?_⟩
  · intro ⟨d, hd, hs⟩
    simp only [overall_status]
    rw [if_pos]
    exact List.any_eq_true.mpr ⟨d, hd, by simp [hs]⟩
  · intro hnb ⟨d, hd, hs⟩
    simp only [overall_status]
    rw [if_neg, if_pos]
    · exact List.any_eq_true.mpr ⟨d, hd, by simp [hs]⟩
    · intro h
      obtain ⟨e, he, hb⟩ := List.any_eq_true.mp h
      exact hnb e he (by simpa using hb)
  · intro hnb hne
    simp only [overall_status]
    rw [if_neg, if_neg]
    · intro h
      obtain ⟨e, he, hb⟩ := List.any_eq_true.mp h
      exact hne e he (by simpa using hb)
    · intro h
      obtain ⟨e, he, hb⟩ := List.any_eq_true.mp h
      exact hnb e he (by simpa using hb)
  · rfl
  · intro last
    rfl
  · intro last hds
    simp only [apply_update_overall]
    rw [if_neg]
    simpa using hds

/-- Witness for C9: with one building deployment the overall status is
"building", and the `_apply_update` overall on the empty list is "error". -/
theorem overall_status_priority_witness :
    overall_status
      [{ id := "a", name := "site", url := "", status := "building",
         created_at := 1000 }] = "building" ∧
    (apply_update_overall none []).1 = some "error" := by
  refine ⟨(overall_status_priority _).1 ⟨_, List.mem_singleton_self _, rfl⟩,
    (overall_status_priority []).2.2.2.2.1 none⟩

/-- C4: `_apply_update` sends the "Overall status" notification if and
only if the new overall status differs from `_last_overall_status` and
`_last_overall_status` is not None; in all cases `_last_overall_status`
then becomes the new overall status. -/
theorem apply_update_notification_gate (last : Option String)
    (ds : List Deployment) :
    (apply_update_overall last ds).1 =
      some (if ds.isEmpty then "error" else overall_status ds) ∧
    ((apply_update_overall last ds).2 = true ↔
      (last ≠ some (if ds.isEmpty then "error" else overall_status ds) ∧
        last ≠ none)) := by
  cases last with
  | none => simp [apply_update_overall]
  | some s =>
    constructor
    · rfl
    · simp only [apply_update_overall, Option.isSome_some, Bool.and_true,
        decide_eq_true_eq, ne_eq, Option.some.injEq, reduceCtorEq,
        not_false_eq_true, and_true]
      exact ⟨fun h he => h he.symm, fun h he => h he.symm⟩

/-- Sample production deployment used by witnesses. -/
def depProdReady : Deployment :=
  { id := "a", name := "site", url := "", status := "ready",
    created_at := 1000, target := "production" }

/-- Sample production deployment whose status moved to building. -/
def depProdBuilding : Deployment :=
  { id := "a", name := "site", url := "", status := "building",
    created_at := 1000, target := "production" }

lemma dictGet_dictSet (m : StrDict) (k v k' : String) :
    dictGet (dictSet m k v) k' = if k = k' then some v else dictGet m k' := by
  induction m with
  | nil => simp [dictSet, dictGet]
  | cons kv rest ih =>
    obtain ⟨k1, v1⟩ := kv
    by_cases h1 : k1 = k
    · subst h1
      by_cases h2 : k1 = k' <;> simp [dictSet, dictGet, h2]
    · by_cases h2 : k1 = k'
      · subst h2
        have hne : ¬k = k1 := fun h => h1 h.symm
        simp [dictSet, dictGet, h1, hne]
      · simp [dictSet, dictGet, h1, h2, ih]

lemma dictGet_record_fold_untouched (l : List Deployment) (m : StrDict)
    (k : String) (hk : ∀ d ∈ l, d.id ≠ k) :
    dictGet (l.foldl (fun m d => dictSet m d.id d.status) m) k = dictGet m k := by
  induction l generalizing m with
  | nil => rfl
  | cons d rest ih =>
    simp only [List.foldl_cons]
    rw [ih _ (fun e he => hk e (List.mem_cons_of_mem _ he)), dictGet_dictSet,
      if_neg (hk d (List.mem_cons_self _ _))]

lemma dictGet_record_fold_mem (l : List Deployment) (m : StrDict)
    (hnd : (l.map Deployment.id).Nodup) :
    ∀ d ∈ l,
      dictGet (l.foldl (fun m d => dictSet m d.id d.status) m) d.id =
        some d.status := by
  induction l generalizing m with
  | nil => simp
  | cons x rest ih =>
    simp only [List.map_cons, List.nodup_cons, List.mem_map] at hnd
    obtain ⟨hx, hrest⟩ := hnd
    intro d hd
    rcases List.mem_cons.mp hd with h | h
    · subst h
      simp only [List.foldl_cons]
      rw [dictGet_record_fold_untouched rest _ _
        (fun e he hek => hx ⟨e, he, hek⟩), dictGet_dictSet, if_pos rfl]
    · exact ih _ hrest d h

lemma notify_loop_spec (l : List Deployment) (seen : StrDict)
    (sent : List Deployment) (hnd : (l.map Deployment.id).Nodup) :
    (notify_loop seen sent l).2 =
      sent ++ l.filter (fun d => decide (dictGet seen d.id ≠ some d.status)) ∧
    (∀ d ∈ l, dictGet (notify_loop seen sent l).1 d.id = some d.status) ∧
    (∀ k, (∀ d ∈ l, d.id ≠ k) →
      dictGet (notify_loop seen sent l).1 k = dictGet seen k) := by
  induction l generalizing seen sent with
  | nil => simp [notify_loop]
  | cons d rest ih =>
    simp only [List.map_cons, List.nodup_cons, List.mem_map] at hnd
    obtain ⟨hd_not, hrest⟩ := hnd
    have hrest_ne : ∀ e ∈ rest, e.id ≠ d.id := fun e he hek => hd_not ⟨e, he, hek⟩
    have hfilter : ∀ seen',
        (∀ e ∈ rest, dictGet seen' e.id = dictGet seen e.id) →
        rest.filter (fun e => decide (dictGet seen' e.id ≠ some e.status)) =
          rest.filter (fun e => decide (dictGet seen e.id ≠ some e.status)) := by
      intro seen' hsame
      exact List.filter_congr (fun e he => by rw [hsame e he])
    rcases hget : dictGet seen d.id with _ | prev
    · have hstep : notify_loop seen sent (d :: rest) =
          notify_loop (dictSet seen d.id d.status) (sent ++ [d]) rest := by
        simp [notify_loop, hget]
      have hsame : ∀ e ∈ rest,
          dictGet (dictSet seen d.id d.status) e.id = dictGet seen e.id := by
        intro e he
        rw [dictGet_dictSet, if_neg (fun h => hrest_ne e he h.symm)]
      obtain ⟨ihs, ihm, ihu⟩ := ih (dictSet seen d.id d.status) (sent ++ [d]) hrest
      refine ⟨?_, ?_, ?_⟩
      · rw [hstep, ihs, hfilter _ hsame, List.filter_cons_of_pos (by simp [hget]),
          List.append_assoc]
        rfl
      · intro e he
        rcases List.mem_cons.mp he with h | h
        · subst h
          rw [hstep, ihu e.id hrest_ne, dictGet_dictSet, if_pos rfl]
        · rw [hstep]
          exact ihm e h
      · intro k hk
        rw [hstep, ihu k (fun e he => hk e (List.mem_cons_of_mem _ he)),
          dictGet_dictSet, if_neg (hk d (List.mem_cons_self _ _))]
    · by_cases hne : prev = d.status
      · subst hne
        have hstep : notify_loop seen sent (d :: rest) =
            notify_loop seen sent rest := by
          simp [notify_loop, hget]
        obtain ⟨ihs, ihm, ihu⟩ := ih seen sent hrest
        refine ⟨?_, ?_, ?_⟩
        · rw [hstep, ihs, List.filter_cons_of_neg (by simp [hget])]
        · intro e he
          rcases List.mem_cons.mp he with h | h
          · subst h
            rw [hstep, ihu e.id hrest_ne, hget]
          · rw [hstep]
            exact ihm e h
        · intro k hk
          rw [hstep]
          exact ihu k (fun e he => hk e (List.mem_cons_of_mem _ he))
      · have hstep : notify_loop seen sent (d :: rest) =
            notify_loop (dictSet seen d.id d.status) (sent ++ [d]) rest := by
          simp [notify_loop, hget, hne]
        have hsame : ∀ e ∈ rest,
            dictGet (dictSet seen d.id d.status) e.id = dictGet seen e.id := by
          intro e he
          rw [dictGet_dictSet, if_neg (fun h => hrest_ne e he h.symm)]
        obtain ⟨ihs, ihm, ihu⟩ := ih (dictSet seen d.id d.status) (sent ++ [d]) hrest
        refine ⟨?_, ?_, ?_⟩
        · rw [hstep, ihs, hfilter _ hsame,
            List.filter_cons_of_pos (by simp [hget, hne]), List.append_assoc]
          rfl
        · intro e he
          rcases List.mem_cons.mp he with h | h
          · subst h
            rw [hstep, ihu e.id hrest_ne, dictGet_dictSet, if_pos rfl]
          · rw [hstep]
            exact ihm e h
        · intro k hk
          rw [hstep, ihu k (fun e he => hk e (List.mem_cons_of_mem _ he)),
            dictGet_dictSet, if_neg (hk d (List.mem_cons_self _ _))]

/-- C2: on the very first invocation of `_notify_production_events`
(`_prod_seen_bootstrapped` false), no production notification is sent;
the status of every production deployment is recorded into `_prod_seen`
keyed by deployment id (stated for distinct ids, which is how deployment
ids arrive), and `_prod_seen_bootstrapped` becomes true. -/
theorem bootstrap_suppresses_notifications (st : ProdState)
    (ds : List Deployment) (h : st.bootstrapped = false) :
    (notify_production_events st ds).2 = [] ∧
    (notify_production_events st ds).1.bootstrapped = true ∧
    (((production_of ds).map Deployment.id).Nodup →
      ∀ d ∈ production_of ds,
        dictGet (notify_production_events st ds).1.prod_seen d.id =
          some d.status) := by
  refine ⟨?_, ?_, ?_⟩
  · simp [notify_production_events, h]
  · simp [notify_production_events, h]
  · intro hnd d hd
    simp only [notify_production_events, h, Bool.not_false, if_pos]
    exact dictGet_record_fold_mem _ _ hnd d hd

/-- Witness for C2: bootstrapping from the initial state on one production
deployment sends nothing and records its status. -/
theorem bootstrap_suppresses_notifications_witness :
    (notify_production_events ⟨[], false⟩ [depProdReady]).2 = [] ∧
    dictGet (notify_production_events ⟨[], false⟩
      [depProdReady]).1.prod_seen "a" = some "ready" := by
  have h := bootstrap_suppresses_notifications ⟨[], false⟩ [depProdReady] rfl
  refine ⟨h.1, ?_⟩
  have h2 := h.2.2 (by decide) depProdReady (by decide)
  simpa [depProdReady] using h2

/-- C3: after bootstrap, a production notification fires for `d` if and
only if `d.id` is absent from `_prod_seen` or bound to a different status,
and after the call `_prod_seen` agrees with the current status of every
production deployment in the list (stated for distinct ids). -/
theorem change_detection_notifies (st : ProdState) (ds : List Deployment)
    (hb : st.bootstrapped = true)
    (hnd : ((production_of ds).map Deployment.id).Nodup) :
    ∀ d ∈ production_of ds,
      ((d ∈ (notify_production_events st ds).2) ↔
        dictGet st.prod_seen d.id ≠ some d.status) ∧
      dictGet (notify_production_events st ds).1.prod_seen d.id =
        some d.status := by
  obtain ⟨hs, hm, _⟩ := notify_loop_spec (production_of ds) st.prod_seen [] hnd
  intro d hd
  have hres2 : (notify_production_events st ds).2 =
      (notify_loop st.prod_seen [] (production_of ds)).2 := by
    simp [notify_production_events, hb]
  have hres1 : (notify_production_events st ds).1.prod_seen =
      (notify_loop st.prod_seen [] (production_of ds)).1 := by
    simp [notify_production_events, hb]
  refine ⟨?_, ?_⟩
  · rw [hres2, hs, List.nil_append, List.mem_filter]
    simp only [decide_eq_true_eq]
    exact ⟨fun h => h.2, fun h => ⟨hd, h⟩⟩
  · rw [hres1]
    exact hm d hd

/-- Witness for C3: with `_prod_seen` binding id "a" to "ready", a
production deployment "a" now "building" is notified and re-recorded. -/
theorem change_detection_notifies_witness :
    depProdBuilding ∈
      (notify_production_events ⟨[("a", "ready")], true⟩
        [depProdBuilding]).2 ∧
    dictGet (notify_production_events ⟨[("a", "ready")], true⟩
      [depProdBuilding]).1.prod_seen "a" = some "building" := by
  have h := change_detection_notifies ⟨[("a", "ready")], true⟩
    [depProdBuilding] rfl (by decide) depProdBuilding (by decide)
  refine ⟨h.1.mpr (by decide), ?_⟩
  simpa [depProdBuilding] using h.2

/-- Invariant tying the `_refresh_in_progress` flag to the number of
outstanding workers. -/
def fetch_inv (s : FetchState) : Prop :=
  s.outstanding = if s.refresh_in_progress then 1 else 0

lemma fetch_step_inv (s : FetchState) (e : FetchEvent) (h : fetch_inv s) :
    fetch_inv (fetch_step s e) := by
  cases e with
  | timeoutFires =>
    by_cases hf : s.refresh_in_progress <;>
      simp [fetch_step, spawn_refresh_thread, fetch_inv, hf, h] <;>
      simpa [fetch_inv, hf] using h
  | scheduleImmediate =>
    by_cases hf : s.refresh_in_progress <;>
      simp [fetch_step, spawn_refresh_thread, fetch_inv, hf, h] <;>
      simpa [fetch_inv, hf] using h
  | scheduleLater => exact h
  | applyUpdate =>
    simp only [fetch_inv, fetch_step, if_neg Bool.false_ne_true]
    by_cases hf : s.refresh_in_progress <;> simp [fetch_inv, hf] at h <;> omega

lemma fetch_run_inv (evs : List FetchEvent) (s : FetchState)
    (h : fetch_inv s) : fetch_inv (fetch_run s evs) := by
  induction evs generalizing s with
  | nil => exact h
  | cons e rest ih => exact ih _ (fetch_step_inv s e h)

/-- C5: at most one background fetch is ever in progress.
`_spawn_refresh_thread` returns without spawning whenever
`_refresh_in_progress` is true; along any sequence of scheduling, timeout
and update events from the initial state, the number of outstanding
workers never exceeds one. -/
theorem single_fetch_in_progress :
    (∀ s : FetchState, s.refresh_in_progress = true →
      spawn_refresh_thread s = s) ∧
    (∀ evs : List FetchEvent, (fetch_run fetch_init evs).outstanding ≤ 1) := by
  constructor
  · intro s h
    simp [spawn_refresh_thread, h]
  · intro evs
    have h := fetch_run_inv evs fetch_init rfl
    rw [fetch_inv] at h
    rw [h]
    by_cases hf : (fetch_run fetch_init evs).refresh_in_progress <;> simp [hf]

/-- Witness for C5: a spawn request on a busy state is a no-op, and a
concrete event sequence keeps at most one fetch outstanding. -/
theorem single_fetch_in_progress_witness :
    spawn_refresh_thread ⟨true, 1⟩ = ⟨true, 1⟩ ∧
    (fetch_run fetch_init
      [.scheduleImmediate, .timeoutFires, .applyUpdate,
       .timeoutFires]).outstanding ≤ 1 :=
  ⟨single_fetch_in_progress.1 ⟨true, 1⟩ rfl, single_fetch_in_progress.2 _⟩

/-- Invariant tying `_refresh_timer_id` to the registered timer sources. -/
def timer_inv (s : TimerState) : Prop :=
  s.active = s.refresh_timer_id.toList

lemma timer_step_inv (s : TimerState) (e : TimerEvent) (h : timer_inv s) :
    timer_inv (timer_step s e) := by
  cases e with
  | timeoutFires => exact h
  | start =>
    rcases hid : s.refresh_timer_id with _ | tid <;>
      simp_all [timer_step, schedule_refresh, timer_inv, hid]
  | manualRefresh =>
    rcases hid : s.refresh_timer_id with _ | tid <;>
      simp_all [timer_step, schedule_refresh, timer_inv, hid]
  | prefsSaved =>
    rcases hid : s.refresh_timer_id with _ | tid <;>
      simp_all [timer_step, schedule_refresh, timer_inv, hid]

lemma timer_run_inv (evs : List TimerEvent) (s : TimerState)
    (h : timer_inv s) : timer_inv (timer_run s evs) := by
  induction evs generalizing s with
  | nil => exact h
  | cons e rest ih => exact ih _ (timer_step_inv s e h)

/-- C6: at most one refresh timer is active at any time. Every reschedule
first removes the existing source when `_refresh_timer_id` is not None and
then registers exactly one new repeating timeout, so along any sequence of
start, manual refresh, preferences-saved and timer-fire events the set of
registered sources is exactly the one timer `_refresh_timer_id` points at,
hence never holds more than one source. -/
theorem single_refresh_timer (evs : List TimerEvent) :
    (timer_run timer_init evs).active =
      (timer_run timer_init evs).refresh_timer_id.toList ∧
    (timer_run timer_init evs).active.length ≤ 1 := by
  have h := timer_run_inv evs timer_init rfl
  refine ⟨h, ?_⟩
  rw [timer_inv] at h
  rw [h]
  rcases (timer_run timer_init evs).refresh_timer_id with _ | tid <;> simp

/-- Sample raw deployment created earlier (epoch 1000 ms). -/
def rawOld : RawDeployment :=
  { id := some "old", name := some "site", createdAt := some 1000,
    readyState := some "READY" }

/-- Sample raw deployment created later (epoch 2000 ms). -/
def rawNew : RawDeployment :=
  { id := some "new", name := some "site", createdAt := some 2000,
    readyState := some "BUILDING" }

/-- Counterexample to C8 as stated: with `limit = -1` and two deployments,
`parsed[: limit]` is Python slicing, which drops the last element of the
sorted list; the returned list has one element, not "at most limit items"
(impossible for a negative limit). -/
theorem list_deployments_negative_limit_counterexample :
    (list_deployments (-1) 0 [rawOld, rawNew]).2 =
      [parse_deployment 0 rawNew] ∧
    ¬ (((list_deployments (-1) 0 [rawOld, rawNew]).2.length : Int) ≤ -1) := by
  constructor
  · decide
  · decide

/-- C8 (amended): `list_deployments` sends a limit query parameter clamped
into [1, 50] and returns the parsed deployments sorted by `created_at`
descending, then sliced by `parsed[: limit]` with Python semantics: for
`limit ≥ 0` at most `limit` items are returned (so `limit = 0` yields the
empty list even though one item was requested), while for `limit < 0` the
last `min(-limit, length)` items are dropped. -/
theorem list_deployments_clamp_sort_slice (limit : Int) (now : Nat)
    (raws : List RawDeployment) :
    1 ≤ (list_deployments limit now raws).1 ∧
    (list_deployments limit now raws).1 ≤ 50 ∧
    List.Pairwise (fun a b : Deployment => b.created_at ≤ a.created_at)
      (list_deployments limit now raws).2 ∧
    (0 ≤ limit →
      ((list_deployments limit now raws).2.length : Int) ≤ limit) ∧
    (limit = 0 → (list_deployments limit now raws).2 = [] ∧
      (list_deployments limit now raws).1 = 1) ∧
    (limit < 0 → (list_deployments limit now raws).2.length =
      raws.length - (-limit).toNat) := by
  have h1 : (list_deployments limit now raws).1 = max 1 (min limit 50) := rfl
  have h2 : (list_deployments limit now raws).2 =
      pySlice limit
        (List.insertionSort created_desc (raws.map (parse_deployment now))) :=
    rfl
  have hsorted :
      List.Pairwise created_desc
        (List.insertionSort created_desc (raws.map (parse_deployment now))) := by
    haveI : IsTotal Deployment created_desc := ⟨fun a b => le_total _ _⟩
    haveI : IsTrans Deployment created_desc :=
      ⟨fun a b c hab hbc => le_trans hbc hab⟩
    exact List.sorted_insertionSort created_desc _
  have hlen_sorted :
      (List.insertionSort created_desc
        (raws.map (parse_deployment now))).length = raws.length := by
    rw [(List.perm_insertionSort created_desc _).length_eq, List.length_map]
  have hlen_nonneg : 0 ≤ limit →
      (list_deployments limit now raws).2.length ≤ limit.toNat := by
    intro hl
    rw [h2, pySlice, if_pos hl, List.length_take]
    exact min_le_left _ _
  refine ⟨?_, ?_, ?_, ?_, ?_, ?_⟩
  · rw [h1]
    exact le_max_left _ _
  · rw [h1]
    exact max_le (by norm_num) (min_le_right _ _)
  · rw [h2, pySlice]
    split_ifs <;> exact List.Pairwise.sublist (List.take_sublist _ _) hsorted
  · intro hl
    have := hlen_nonneg hl
    omega
  · intro hl
    subst hl
    refine ⟨?_, by rw [h1]; decide⟩
    have := hlen_nonneg le_rfl
    exact List.length_eq_zero.mp (by omega)
  · intro hl
    rw [h2, pySlice, if_neg (by omega), List.length_take, hlen_sorted]
    omega

/-- Witness for C8 (amended): with limit 1 at most one item comes back,
and limit 0 yields the empty list. -/
theorem list_deployments_clamp_sort_slice_witness :
    ((list_deployments 1 0 [rawOld, rawNew]).2.length : Int) ≤ 1 ∧
    (list_deployments 0 0 [rawOld, rawNew]).2 = [] :=
  ⟨(list_deployments_clamp_sort_slice 1 0 [rawOld, rawNew]).2.2.2.1
      (by decide),
    ((list_deployments_clamp_sort_slice 0 0 [rawOld, rawNew]).2.2.2.2.1
      rfl).1⟩

/-- First-defined of two optional values; describes Python
`existing-binding wins` composition. -/
def oFirst (a b : Option CVal) : Option CVal :=
  match a with
  | some v => some v
  | none => b

lemma oFirst_none (a : Option CVal) : oFirst a none = a := by
  cases a <;> rfl

lemma cget_append (m1 m2 : CDict) (k : String) :
    cget (m1 ++ m2) k = oFirst (cget m1 k) (cget m2 k) := by
  induction m1 with
  | nil => simp [cget, oFirst]
  | cons kv rest ih =>
    obtain ⟨k1, v1⟩ := kv
    by_cases h : k1 = k <;> simp [cget, oFirst, h, ih]

lemma cget_fold_setdefault (l : CDict) (m : CDict) (k : String) :
    cget (l.foldl (fun acc kv => setdefault acc kv.1 kv.2) m) k =
      oFirst (cget m k) (cget l k) := by
  induction l generalizing m with
  | nil => simp [cget, oFirst_none]
  | cons kv rest ih =>
    obtain ⟨k1, v1⟩ := kv
    simp only [List.foldl_cons]
    rw [ih]
    by_cases h1 : k1 = k
    · subst h1
      rcases h : cget m k1 with _ | v
      · rw [setdefault, if_neg (by simp [h]), cget_append]
        simp [cget, oFirst, h]
      · rw [setdefault, if_pos (by simp [h])]
        simp [cget, oFirst, h]
    · have hs : cget (setdefault m k1 v1) k = cget m k := by
        rw [setdefault]
        split_ifs with hh
        · rfl
        · rw [cget_append]
          simp [cget, h1, oFirst_none]
      rw [hs]
      simp [cget, h1]

lemma default_config_keys_bound :
    ∀ kv ∈ default_config, cget default_config kv.1 = some kv.2 := by
  decide

/-- C10: `load_config` never raises (it is total on every file outcome)
and always yields all five configuration keys: a missing or unparseable
file yields the defaults, and a parsed file keeps every present key while
missing keys get their default value. -/
theorem load_config_total_with_defaults (f : ConfigFile) :
    (∀ kv ∈ default_config, (cget (load_config f) kv.1).isSome) ∧
    (f = .missing → load_config f = default_config) ∧
    (f = .unreadable → load_config f = default_config) ∧
    (∀ data, f = .parsed data →
      (∀ k v, cget data k = some v → cget (load_config f) k = some v) ∧
      (∀ kv ∈ default_config, cget data kv.1 = none →
        cget (load_config f) kv.1 = some kv.2)) := by
  refine ⟨?_, ?_, ?_, ?_⟩
  · intro kv hkv
    cases f with
    | missing =>
      rw [load_config, default_config_keys_bound kv hkv]
      rfl
    | unreadable =>
      rw [load_config, default_config_keys_bound kv hkv]
      rfl
    | parsed data =>
      rw [load_config, cget_fold_setdefault]
      rcases h : cget data kv.1 with _ | v
      · simp [oFirst, default_config_keys_bound kv hkv]
      · simp [oFirst]
  · intro h
    subst h
    rfl
  · intro h
    subst h
    rfl
  · intro data h
    subst h
    constructor
    · intro k v hv
      rw [load_config, cget_fold_setdefault, hv]
      rfl
    · intro kv hkv habsent
      rw [load_config, cget_fold_setdefault, habsent]
      simpa [oFirst] using default_config_keys_bound kv hkv

/-- Witness for C10: a file that only sets the token keeps the token and
receives the default refresh interval; a missing file yields the
defaults. -/
theorem load_config_total_with_defaults_witness :
    cget (load_config (.parsed [("token", .s "abc")])) "token" =
      some (.s "abc") ∧
    cget (load_config (.parsed [("token", .s "abc")])) "refresh_interval" =
      some (.n 30) ∧
    load_config .missing = default_config := by
  have h := load_config_total_with_defaults (.parsed [("token", .s "abc")])
  exact ⟨(h.2.2.2 _ rfl).1 "token" (.s "abc") (by decide),
    (h.2.2.2 _ rfl).2 ("refresh_interval", .n 30) (by decide) (by decide),
    (load_config_total_with_defaults .missing).2.1 rfl⟩

end VercelSpec
